import Mathlib

/-!
Verification of the chunked video upload / assembly / transcoding / streaming
pipeline of the hockey-analytics backend
(`backend/app/routes/videos.py`, `backend/app/services/video_processor.py`,
`backend/app/services/streaming.py`, `backend/app/models.py`).

The external collaborators (Supabase blob storage and the `videos` metadata
table) are modelled as ideal key-value state: a blob store is a function from
path strings to optional byte lists, and the video record is a Lean structure
mirroring the row columns that the code reads and writes.  Byte strings are
`List Nat`.  Points where the code invokes an external process or a network
call that can fail (consolidated upload, per-rendition ffmpeg run, ffprobe,
chunk deletion, HLS upload) are driven by an explicit environment of outcomes,
so that every exception path of the Python handlers is a reachable branch of
the model.
-/

namespace HockeyAnalytics

abbrev Bytes := List Nat

/-- The blob storage bucket: path string to stored bytes. -/
abbrev Store := String → Option Bytes

/-- Blob upload `storage.from_('videos').upload(path, data, upsert=true)`: overwrite. -/
def Store.put (st : Store) (k : String) (v : Bytes) : Store :=
  fun q => if q = k then some v else st q

/-- Blob removal `storage.from_('videos').remove([path])`. -/
def Store.del (st : Store) (k : String) : Store :=
  fun q => if q = k then none else st q

def Store.empty : Store := fun _ => none

@[simp] theorem Store.put_self (st : Store) (k : String) (v : Bytes) :
    Store.put st k v k = some v := by
  simp [Store.put]

theorem Store.put_other (st : Store) (k q : String) (v : Bytes) (h : q ≠ k) :
    Store.put st k v q = st q := by
  simp [Store.put, h]

theorem Store.del_other (st : Store) (k q : String) (h : q ≠ k) :
    Store.del st k q = st q := by
  simp [Store.del, h]

@[simp] theorem Store.del_self (st : Store) (k : String) :
    Store.del st k k = none := by
  simp [Store.del]

/-! ### Decimal formatting

`f"chunk_{chunk_index_int:04d}"` zero-pads the decimal representation of the
index to width 4.  `decChars` is the decimal digit string of a natural number
(most significant digit first), `padZeros` the zero padding. -/

/-- Decimal digit characters of `n`, most significant first; the first
argument is structural fuel (`n` itself always suffices). -/
def decCharsCore : Nat → Nat → List Char
  | 0, _ => []
  | fuel + 1, n =>
    if n = 0 then [] else decCharsCore fuel (n / 10) ++ [Nat.digitChar (n % 10)]

/-- The decimal rendering of a natural number, as Python `str`/`format`
produce it. -/
def decChars (n : Nat) : List Char :=
  if n = 0 then ['0'] else decCharsCore n n

def padZeros (w : Nat) (l : List Char) : List Char :=
  List.replicate (w - l.length) '0' ++ l

/-- Python `f"{i:04d}"` for a natural number `i`. -/
def pad04 (n : Nat) : String :=
  ⟨padZeros 4 (decChars n)⟩

/-- Decimal parsing, used to show the zero-padded rendering is lossless and
also to model Python `int(...)` on digit strings. -/
def parseDec (l : List Char) : Nat :=
  l.foldl (fun acc c => 10 * acc + (c.toNat - '0'.toNat)) 0

theorem digitChar_val {d : Nat} (h : d < 10) :
    (Nat.digitChar d).toNat - '0'.toNat = d := by
  revert h
  revert d
  decide

theorem parseDec_append_digit (l : List Char) (c : Char) :
    parseDec (l ++ [c]) = 10 * parseDec l + (c.toNat - '0'.toNat) := by
  unfold parseDec
  rw [List.foldl_append]
  rfl

theorem parseDec_decCharsCore (fuel n : Nat) (h : n ≤ fuel) :
    parseDec (decCharsCore fuel n) = n := by
  induction fuel generalizing n with
  | zero =>
    have : n = 0 := Nat.le_zero.mp h
    subst this
    rfl
  | succ fuel ih =>
    unfold decCharsCore
    by_cases hn : n = 0
    · subst hn
      rfl
    · rw [if_neg hn, parseDec_append_digit, ih (n / 10) (by omega),
        digitChar_val (Nat.mod_lt _ (by norm_num))]
      omega

theorem parseDec_decChars (n : Nat) : parseDec (decChars n) = n := by
  by_cases h : n = 0
  · subst h; decide
  · unfold decChars
    rw [if_neg h, parseDec_decCharsCore n n le_rfl]

theorem parseDec_padZeros (w : Nat) (l : List Char) :
    parseDec (padZeros w l) = parseDec l := by
  unfold padZeros parseDec
  generalize w - l.length = k
  induction k with
  | zero => simp
  | succ k ih =>
    rw [List.replicate_succ, List.cons_append, List.foldl_cons]
    simpa using ih

theorem parseDec_pad04 (n : Nat) : parseDec (pad04 n).data = n := by
  show parseDec (padZeros 4 (decChars n)) = n
  rw [parseDec_padZeros, parseDec_decChars]

theorem pad04_injective : Function.Injective pad04 := by
  intro m n h
  have : parseDec (pad04 m).data = parseDec (pad04 n).data := by rw [h]
  rwa [parseDec_pad04, parseDec_pad04] at this

/-! ### Storage paths -/

/-- Chunk blob path `f"{org_id}/{video_id}/chunks/chunk_{chunk_index_int:04d}.tmp"`
(routes/videos.py, upload_chunk and complete_upload). -/
def chunkPath (org vid : String) (i : Nat) : String :=
  org ++ "/" ++ vid ++ "/chunks/chunk_" ++ pad04 i ++ ".tmp"

/-- Path `f"{org_id}/{video_id}/original.mp4"` — the storage path computed at
session init (routes/videos.py:167) and used for the consolidated upload at
assembly (routes/videos.py:287). -/
def completionStoragePath (org vid : String) : String :=
  org ++ "/" ++ vid ++ "/original.mp4"

/-- Path `f"videos/{org_id}/{video_id}/original.mp4"` — the path the direct upload
route stores to (video_processor.py:39, process_upload). -/
def processUploadStoragePath (org vid : String) : String :=
  "videos/" ++ org ++ "/" ++ vid ++ "/original.mp4"

/-- Path `f"videos/{org_id}/{video_id}/original.mp4"` — the blob the streaming
proxy resolves (streaming.py:29, stream_video_segment). -/
def streamResolvedPath (org vid : String) : String :=
  "videos/" ++ org ++ "/" ++ vid ++ "/original.mp4"

/-- Path `f"videos/{org_id}/{video_id}/hls/master.m3u8"` recorded as the HLS
manifest location (video_processor.py:229). -/
def hlsManifestPath (org vid : String) : String :=
  "videos/" ++ org ++ "/" ++ vid ++ "/hls/master.m3u8"

theorem chunkPath_inj (org vid : String) {i j : Nat}
    (h : chunkPath org vid i = chunkPath org vid j) : i = j := by
  unfold chunkPath at h
  have hd := congrArg String.data h
  simp only [String.data_append] at hd
  have h1 := List.append_cancel_right hd
  have h2 := List.append_cancel_left h1
  exact pad04_injective (by apply String.ext; exact h2)

theorem getLast?_append_right {α : Type} (l m : List α) (h : m ≠ []) :
    (l ++ m).getLast? = m.getLast? := by
  induction l with
  | nil => simp
  | cons a l ih =>
    rw [List.cons_append]
    match hlm : l ++ m with
    | [] => exact absurd (List.append_eq_nil.mp hlm).2 h
    | x :: xs => rw [List.getLast?_cons_cons, ← hlm, ih]

theorem chunkPath_ne_completionPath (org vid org' vid' : String) (i : Nat) :
    chunkPath org vid i ≠ completionStoragePath org' vid' := by
  intro h
  have hd : (chunkPath org vid i).data.getLast? =
      (completionStoragePath org' vid').data.getLast? := by rw [h]
  have h1 : (chunkPath org vid i).data.getLast? = some 'p' := by
    unfold chunkPath
    simp only [String.data_append]
    rw [getLast?_append_right _ (String.data ".tmp") (by decide)]
    decide
  have h2 : (completionStoragePath org' vid').data.getLast? = some '4' := by
    unfold completionStoragePath
    simp only [String.data_append]
    rw [getLast?_append_right _ (String.data "/original.mp4") (by decide)]
    decide
  rw [h1, h2] at hd
  exact absurd hd (by decide)

/-! ### The video record and its metadata column

`videos` table columns the pipeline reads or writes.  The `metadata` column is
a JSON object; it is modelled as a structure of optional fields, with `none`
meaning the key is absent (`metadata.get(key, default)` becomes `getD`). -/

structure Meta where
  session_id : Option String := none
  total_chunks : Option Int := none
  uploaded_chunks : Option (List Nat) := none
  assembly_complete : Option Bool := none
  file_size : Option Int := none
  storage_type : Option String := none
  duration : Option ℚ := none
  fps : Option ℚ := none
  resolution : Option String := none
  codec : Option String := none
  bitrate : Option Int := none
  size : Option Int := none
  hls_manifest : Option String := none
deriving DecidableEq

structure VideoRec where
  status : String
  filename : String := ""
  storage_path : Option String := none
  file_size_bytes : Option Int := none
  meta : Meta := {}
deriving DecidableEq

/-- The four values of `VideoStatus` (models.py:8-12). -/
def videoStatusValues : List String :=
  ["uploaded", "processing", "processed", "failed"]

/-! ### init_chunked_upload (routes/videos.py:145-190) -/

/-- Python `int(s)` on a string: optional sign followed by decimal digits;
anything else raises `ValueError` (modelled as `none`). -/
def pyInt? (s : String) : Option Int :=
  match s.data with
  | '-' :: rest =>
    if rest ≠ [] ∧ rest.all (·.isDigit) then some (-(parseDec rest : Int)) else none
  | '+' :: rest =>
    if rest ≠ [] ∧ rest.all (·.isDigit) then some ((parseDec rest : Int)) else none
  | l =>
    if l ≠ [] ∧ l.all (·.isDigit) then some ((parseDec l : Int)) else none

structure InitOutcome where
  created : Option VideoRec := none
  errorCode : Option Nat := none
deriving DecidableEq

/-- Handler `init_chunked_upload`: parse the form strings; on `ValueError` reject with
HTTP 400 and create nothing; otherwise insert the video record with
status `uploaded` and an empty `uploaded_chunks` list.  No positivity check is
performed on either parsed value. -/
def initChunkedUpload (filename file_size total_chunks org vid session : String) :
    InitOutcome :=
  match pyInt? file_size, pyInt? total_chunks with
  | some fs, some tc =>
    { created := some
        { status := "uploaded"
          filename := filename
          storage_path := some (completionStoragePath org vid)
          file_size_bytes := some fs
          meta := { session_id := some session
                    total_chunks := some tc
                    uploaded_chunks := some [] } } }
  | _, _ => { errorCode := some 400 }

/-! ### upload_chunk (routes/videos.py:193-236) -/

/-- One `upload_chunk` call for an existing session: store the chunk bytes at
`chunkPath` (upsert), then append the index to `metadata['uploaded_chunks']`
(the code appends unconditionally, it does not deduplicate). -/
def uploadChunk (org vid : String) (st : Store) (m : Meta) (idx : Nat) (data : Bytes) :
    Store × Meta :=
  (Store.put st (chunkPath org vid idx) data,
   { m with uploaded_chunks := some (m.uploaded_chunks.getD [] ++ [idx]) })

/-- A sequence of `upload_chunk` calls in arrival order. -/
def applyUploads (org vid : String) (init : Store × Meta) (arr : List (Nat × Bytes)) :
    Store × Meta :=
  arr.foldl (fun sm p => uploadChunk org vid sm.1 sm.2 p.1 p.2) init

/-! ### ffprobe metadata extraction (video_processor.py:81-129) -/

/-- Python `s.split('/')` on the character list of a string: split on every
`'/'`, keeping empty parts. -/
def splitSlash : List Char → List (List Char)
  | [] => [[]]
  | c :: rest =>
    if c = '/' then [] :: splitSlash rest
    else
      match splitSlash rest with
      | [] => [[c]]
      | r :: rs => (c :: r) :: rs

/-- Python `float(s)` restricted to the unsigned-integer fragment that ffprobe
emits in `r_frame_rate` rationals; any other string raises (modelled `none`). -/
def pyFloat? (l : List Char) : Option ℚ :=
  if l ≠ [] ∧ l.all (·.isDigit) then some ((parseDec l : ℚ)) else none

/-- Frame-rate parsing (video_processor.py:112-118): split on `'/'`; when
there are exactly two parts divide them, any conversion error or a zero
denominator (Python `ZeroDivisionError`) is caught and yields 0; when the
split does not have exactly two parts the result is 0. -/
def parseFps (fps_str : String) : ℚ :=
  match splitSlash fps_str.data with
  | [a, b] =>
    match pyFloat? a, pyFloat? b with
    | some x, some y => if y = 0 then (0 : ℚ) else x / y
    | _, _ => 0
  | _ => 0

structure FfprobeStream where
  codec_type : String
  r_frame_rate : Option String := none
  width : Nat := 0
  height : Nat := 0
  codec_name : Option String := none

structure FfprobeFormat where
  duration : Option ℚ := none
  bit_rate : Option Int := none
  size : Option Int := none

structure FfprobeOutput where
  streams : List FfprobeStream := []
  format : FfprobeFormat := {}

structure ProbeMeta where
  duration : ℚ
  fps : ℚ
  resolution : String
  codec : String
  bitrate : Int
  size : Int
deriving DecidableEq

/-- Model of `get_video_metadata` on a successfully parsed ffprobe JSON document
(the subprocess and JSON decoding are external). -/
def getVideoMetadata (probe : FfprobeOutput) : ProbeMeta :=
  let videoStream? := probe.streams.find? (fun s => s.codec_type == "video")
  let fps_str :=
    match videoStream? with
    | some s => s.r_frame_rate.getD "0/1"
    | none => "0/1"
  { duration := probe.format.duration.getD 0
    fps := parseFps fps_str
    resolution :=
      match videoStream? with
      | some s => (⟨decChars s.width⟩ : String) ++ "x" ++ (⟨decChars s.height⟩ : String)
      | none => "0x0"
    codec :=
      match videoStream? with
      | some s => s.codec_name.getD "unknown"
      | none => "unknown"
    bitrate := probe.format.bit_rate.getD 0
    size := probe.format.size.getD 0 }

/-! ### The HLS quality ladder (video_processor.py:139-210) -/

structure QualityPreset where
  name : String
  resolution : String
  bitrate : String
  audio_bitrate : String
  maxrate : String
  bufsize : String

def qualityPresets : List QualityPreset :=
  [{ name := "1080p", resolution := "1920x1080", bitrate := "5000k",
     audio_bitrate := "128k", maxrate := "5350k", bufsize := "7500k" },
   { name := "720p", resolution := "1280x720", bitrate := "2500k",
     audio_bitrate := "128k", maxrate := "2675k", bufsize := "3750k" },
   { name := "480p", resolution := "854x480", bitrate := "1000k",
     audio_bitrate := "96k", maxrate := "1070k", bufsize := "1500k" }]

/-- Python `s.rstrip('k')`. -/
def rstripK (s : String) : String :=
  ⟨(s.data.reverse.dropWhile (fun c => c = 'k')).reverse⟩

structure PlaylistEntry where
  name : String
  resolution : String
  bandwidth : Nat
deriving DecidableEq

/-- Bandwidth `int(preset['bitrate'].rstrip('k')) * 1000 + int(preset['audio_bitrate'].rstrip('k')) * 1000`. -/
def presetBandwidth (p : QualityPreset) : Nat :=
  parseDec (rstripK p.bitrate).data * 1000 + parseDec (rstripK p.audio_bitrate).data * 1000

/-- The `playlists` list built by the rendition loop: the i-th ffmpeg
invocation outcome is `rendOk i`; a failed rendition is skipped
(`continue`), a successful one appends its entry in attempt order. -/
def hlsPlaylists (rendOk : Nat → Bool) : List PlaylistEntry :=
  qualityPresets.enum.foldl
    (fun acc ip =>
      if rendOk ip.1 then
        acc ++ [{ name := ip.2.name, resolution := ip.2.resolution,
                  bandwidth := presetBandwidth ip.2 }]
      else acc)
    []

/-- The serialized master playlist (video_processor.py:214-218). -/
def masterManifest (playlists : List PlaylistEntry) : String :=
  playlists.foldl
    (fun acc p =>
      acc ++ "#EXT-X-STREAM-INF:BANDWIDTH=" ++ (⟨decChars p.bandwidth⟩ : String) ++
        ",RESOLUTION=" ++ p.resolution ++ "\n" ++ p.name ++ ".m3u8\n")
    "#EXTM3U\n#EXT-X-VERSION:3\n"

/-! ### The completion pipeline (routes/videos.py:239-362) -/

/-- Outcomes of the external calls the pipeline makes; each `false`/`error`
value corresponds to a raised exception at that call site in the code. -/
structure Env where
  uploadOk : Bool := true
  hlsUploadOk : Bool := true
  deleteOk : Nat → Bool := fun _ => true
  probe : Except Unit ProbeMeta := .error ()
  rendOk : Nat → Bool := fun _ => false

/-- The chunk download-and-concatenate loop (routes/videos.py:277-284):
read chunks strictly in index order `0..total-1`, appending each to the
output; a failed download (missing blob) raises, modelled as `none`. -/
def assembleChunks (org vid : String) (st : Store) (total : Nat) : Option Bytes :=
  (List.range total).foldl
    (fun acc i =>
      match acc, st (chunkPath org vid i) with
      | some xs, some c => some (xs ++ c)
      | _, _ => none)
    (some [])

/-- The chunk cleanup loop after a consolidated upload
(routes/videos.py:313-319): each `remove` is wrapped in `try/except: pass`,
so a failed deletion (`deleteOk i = false`) leaves the blob in place and
never raises. -/
def deleteChunks (org vid : String) (st : Store) (total : Nat) (deleteOk : Nat → Bool) :
    Store :=
  (List.range total).foldl
    (fun s i => if deleteOk i then Store.del s (chunkPath org vid i) else s)
    st

/-- The storage-strategy step (routes/videos.py:286-319): over 50MB keep the
chunk set and mark `storage_type = 'chunked'`; otherwise upload the
consolidated blob (which can raise), mark `storage_type = 'single'` and
best-effort delete the chunks. -/
def storageStep (org vid : String) (st : Store) (m : Meta) (assembled : Bytes)
    (env : Env) : Except Unit (Meta × Store) :=
  if Int.ofNat assembled.length > 50 * 1024 * 1024 then
    .ok ({ m with assembly_complete := some true
                  file_size := some (Int.ofNat assembled.length)
                  storage_type := some "chunked" }, st)
  else if env.uploadOk then
    let st1 := Store.put st (completionStoragePath org vid) assembled
    let m1 := { m with storage_type := some "single" }
    let st2 := deleteChunks org vid st1 (m.total_chunks.getD 0).toNat env.deleteOk
    .ok (m1, st2)
  else .error ()

/-- The probe step (routes/videos.py:321-335): merge the probe result into the
metadata; if `get_video_metadata` raises, merge the fallback record instead
(duration 0, fps 30, resolution/codec unknown, bitrate 0, size = assembled
file size) and continue. -/
def probeStep (m : Meta) (file_size : Int) (probe : Except Unit ProbeMeta) : Meta :=
  match probe with
  | .ok pm =>
    { m with duration := some pm.duration, fps := some pm.fps,
             resolution := some pm.resolution, codec := some pm.codec,
             bitrate := some pm.bitrate, size := some pm.size }
  | .error _ =>
    { m with duration := some 0, fps := some 30, resolution := some "unknown",
             codec := some "unknown", bitrate := some 0, size := some file_size }

/-- Model of `convert_to_hls` (video_processor.py:131-244), abstracted over the
per-rendition ffmpeg outcomes: collect the successful renditions; if none
succeeded raise (`"No HLS streams were successfully created"`); otherwise
write and upload the master playlist and rendition files (the upload can
raise) and return the playlist entries. -/
def convertToHls (env : Env) : Except Unit (List PlaylistEntry) :=
  if hlsPlaylists env.rendOk = [] then .error ()
  else if env.hlsUploadOk then .ok (hlsPlaylists env.rendOk)
  else .error ()

inductive Outcome
  | ok
  | missingChunks (n : Int)
  | pipelineError
deriving DecidableEq

structure CUResult where
  record : VideoRec
  store : Store
  hlsStored : Option (List PlaylistEntry)
  outcome : Outcome
  transcodeAttempted : Bool

/-- Model of `complete_upload` (routes/videos.py:239-362) for the session's video
record `rec` and bucket state `st`.  Mirrors the handler: the missing-chunks
check compares the *length* of `uploaded_chunks` with `total_chunks` before
the `try` block; every exception inside the `try` is caught by the handler's
`except`, which writes status `failed` and re-raises as HTTP 500
(`Outcome.pipelineError`).  On the single-file path `convert_to_hls` finishes
by replacing the metadata column with `{'hls_manifest': ...}` and setting
status `processed`; on the chunked path the handler itself sets `processed`
without transcoding. -/
def completeUpload (org vid : String) (rec : VideoRec) (st : Store) (env : Env) :
    CUResult :=
  if ((rec.meta.uploaded_chunks.getD []).length : Int) ≠ rec.meta.total_chunks.getD 0 then
    { record := rec, store := st, hlsStored := none,
      outcome := .missingChunks (rec.meta.total_chunks.getD 0 -
        (rec.meta.uploaded_chunks.getD []).length),
      transcodeAttempted := false }
  else
    match assembleChunks org vid st (rec.meta.total_chunks.getD 0).toNat with
    | none =>
      { record := { rec with status := "failed" }, store := st, hlsStored := none,
        outcome := .pipelineError, transcodeAttempted := false }
    | some assembled =>
      match storageStep org vid st rec.meta assembled env with
      | .error _ =>
        { record := { rec with status := "failed" }, store := st, hlsStored := none,
          outcome := .pipelineError, transcodeAttempted := false }
      | .ok (meta1, st1) =>
        if (probeStep meta1 (Int.ofNat assembled.length) env.probe).storage_type =
            some "single" then
          match convertToHls env with
          | .ok playlists =>
            { record :=
                { rec with status := "processed"
                           meta := { hls_manifest := some (hlsManifestPath org vid) } },
              store := st1, hlsStored := some playlists, outcome := .ok,
              transcodeAttempted := true }
          | .error _ =>
            { record :=
                { rec with status := "failed"
                           meta := probeStep meta1 (Int.ofNat assembled.length) env.probe },
              store := st1, hlsStored := none,
              outcome := .pipelineError, transcodeAttempted := true }
        else
          { record :=
              { rec with status := "processed"
                         meta := probeStep meta1 (Int.ofNat assembled.length) env.probe },
            store := st1, hlsStored := none,
            outcome := .ok, transcodeAttempted := false }

/-! ### The direct upload route (routes/videos.py:55-102) -/

/-- Status values `upload_video` writes to the `videos` table, in order:
`uploaded` at insert (line 84), then — when `process_upload` raises — the
string `'error'` (line 101). -/
def uploadVideoStatusWrites (processOk : Bool) : List String :=
  ["uploaded"] ++ (if processOk then [] else ["error"])

/-! ### The streaming proxy (streaming.py:15-62) -/

structure StreamResponseModel where
  resolvedPath : String
  backendHeaders : List (String × String)
  responseHeaders : List (String × String)
  mediaType : String
deriving DecidableEq

/-- Handler `stream_video_segment`: resolve the single-file blob URL, forward the
client `Range` header to the backend unmodified when present, and answer
with `Accept-Ranges: bytes`. -/
def streamVideoSegment (org vid : String) (rangeHeader : Option String) :
    StreamResponseModel :=
  { resolvedPath := streamResolvedPath org vid
    backendHeaders :=
      match rangeHeader with
      | some r => [("Range", r)]
      | none => []
    responseHeaders :=
      [("Accept-Ranges", "bytes"), ("Cache-Control", "no-cache"),
       ("Access-Control-Allow-Origin", "*"),
       ("Access-Control-Allow-Methods", "GET, OPTIONS"),
       ("Access-Control-Allow-Headers", "Range")]
    mediaType := "video/mp4" }

/-! ### Helper lemmas -/

theorem foldPut_lookup_notin (org vid : String) (arr : List (Nat × Bytes)) (st : Store)
    (k : String) (h : ∀ p ∈ arr, chunkPath org vid p.1 ≠ k) :
    (arr.foldl (fun s p => Store.put s (chunkPath org vid p.1) p.2) st) k = st k := by
  induction arr generalizing st with
  | nil => rfl
  | cons q rest ih =>
    rw [List.foldl_cons, ih _ (fun p hp => h p (List.mem_cons_of_mem q hp))]
    exact Store.put_other st _ k q.2 (fun hk => h q (List.mem_cons_self q rest) hk.symm)

theorem foldPut_lookup_last (org vid : String) (arr : List (Nat × Bytes)) (st : Store)
    (i : Nat) (c : Bytes) (hmem : (i, c) ∈ arr)
    (huniq : ∀ p ∈ arr, p.1 = i → p.2 = c) :
    (arr.foldl (fun s p => Store.put s (chunkPath org vid p.1) p.2) st)
      (chunkPath org vid i) = some c := by
  induction arr generalizing st with
  | nil => exact absurd hmem (List.not_mem_nil _)
  | cons q rest ih =>
    rw [List.foldl_cons]
    by_cases hrest : ∃ p ∈ rest, p.1 = i
    · obtain ⟨p, hp, hpi⟩ := hrest
      have hpc : p.2 = c := huniq p (List.mem_cons_of_mem q hp) hpi
      have hpm : (i, c) ∈ rest := by
        have : p = (i, c) := by
          cases p
          simp_all
        rwa [this] at hp
      exact ih _ hpm (fun p hp hpi => huniq p (List.mem_cons_of_mem q hp) hpi)
    · have hq : q = (i, c) := by
        rcases List.mem_cons.mp hmem with h1 | h1
        · exact h1.symm
        · exact absurd ⟨(i, c), h1, rfl⟩ hrest
      subst hq
      rw [foldPut_lookup_notin org vid rest _ _
        (fun p hp hcp => hrest ⟨p, hp, chunkPath_inj org vid hcp⟩)]
      exact Store.put_self st _ _

theorem applyUploads_store (org vid : String) (arr : List (Nat × Bytes)) (st : Store)
    (m : Meta) :
    (applyUploads org vid (st, m) arr).1 =
      arr.foldl (fun s p => Store.put s (chunkPath org vid p.1) p.2) st := by
  induction arr generalizing st m with
  | nil => rfl
  | cons q rest ih =>
    show (applyUploads org vid (uploadChunk org vid st m q.1 q.2) rest).1 = _
    rw [List.foldl_cons]
    exact ih _ _

theorem applyUploads_chunklist (org vid : String) (arr : List (Nat × Bytes)) (st : Store)
    (m : Meta) :
    ((applyUploads org vid (st, m) arr).2.uploaded_chunks).getD [] =
      m.uploaded_chunks.getD [] ++ arr.map Prod.fst := by
  induction arr generalizing st m with
  | nil => simp [applyUploads]
  | cons q rest ih =>
    show ((applyUploads org vid (uploadChunk org vid st m q.1 q.2) rest).2.uploaded_chunks).getD [] = _
    rw [ih]
    simp [uploadChunk]

theorem assembleChunks_of_lookup (org vid : String) (st : Store) (N : Nat)
    (b : Nat → Bytes) (h : ∀ i, i < N → st (chunkPath org vid i) = some (b i)) :
    assembleChunks org vid st N = some (((List.range N).map b).flatten) := by
  induction N with
  | zero => rfl
  | succ N ih =>
    unfold assembleChunks at ih ⊢
    rw [List.range_succ, List.foldl_append,
      ih (fun i hi => h i (Nat.lt_succ_of_lt hi))]
    simp [h N (Nat.lt_succ_self N), List.range_succ]

theorem deleteChunks_succ (org vid : String) (st : Store) (total : Nat)
    (dok : Nat → Bool) :
    deleteChunks org vid st (total + 1) dok =
      (if dok total then
        Store.del (deleteChunks org vid st total dok) (chunkPath org vid total)
      else deleteChunks org vid st total dok) := by
  unfold deleteChunks
  rw [List.range_succ, List.foldl_append]
  rfl

theorem deleteChunks_lookup_other (org vid : String) (st : Store) (total : Nat)
    (dok : Nat → Bool) (k : String)
    (h : ∀ i, i < total → dok i = true → chunkPath org vid i ≠ k) :
    deleteChunks org vid st total dok k = st k := by
  induction total with
  | zero => rfl
  | succ total ih =>
    rw [deleteChunks_succ]
    by_cases hd : dok total = true
    · rw [if_pos hd,
        Store.del_other _ _ _ (fun hk => h total (Nat.lt_succ_self total) hd hk.symm),
        ih (fun i hi hdi => h i (Nat.lt_succ_of_lt hi) hdi)]
    · rw [if_neg hd, ih (fun i hi hdi => h i (Nat.lt_succ_of_lt hi) hdi)]

theorem deleteChunks_preserves_none (org vid : String) (st : Store) (total : Nat)
    (dok : Nat → Bool) (k : String) (h : st k = none) :
    deleteChunks org vid st total dok k = none := by
  induction total with
  | zero => exact h
  | succ total ih =>
    rw [deleteChunks_succ]
    by_cases hd : dok total = true
    · rw [if_pos hd]
      unfold Store.del
      split
      · rfl
      · exact ih
    · rw [if_neg hd]
      exact ih

theorem deleteChunks_lookup_deleted (org vid : String) (st : Store) (total : Nat)
    (dok : Nat → Bool) (i : Nat) (hi : i < total) (hd : dok i = true) :
    deleteChunks org vid st total dok (chunkPath org vid i) = none := by
  induction total with
  | zero => omega
  | succ total ih =>
    rw [deleteChunks_succ]
    by_cases hit : i = total
    · subst hit
      rw [if_pos hd]
      exact Store.del_self _ _
    · have hlt : i < total := by omega
      by_cases hdt : dok total = true
      · rw [if_pos hdt]
        unfold Store.del
        split
        · rfl
        · exact ih hlt
      · rw [if_neg hdt]
        exact ih hlt

theorem probeStep_storage_type (m : Meta) (fs : Int) (p : Except Unit ProbeMeta) :
    (probeStep m fs p).storage_type = m.storage_type := by
  cases p <;> rfl

theorem probeStep_hls_manifest (m : Meta) (fs : Int) (p : Except Unit ProbeMeta) :
    (probeStep m fs p).hls_manifest = m.hls_manifest := by
  cases p <;> rfl

theorem storageStep_ok_meta (org vid : String) (st : Store) (m : Meta)
    (assembled : Bytes) (env : Env) (m' : Meta) (st' : Store)
    (h : storageStep org vid st m assembled env = .ok (m', st')) :
    m'.hls_manifest = m.hls_manifest := by
  unfold storageStep at h
  split at h
  · cases h
    rfl
  · split at h
    · cases h
      rfl
    · cases h

theorem convertToHls_ok (env : Env) (pl : List PlaylistEntry)
    (h : convertToHls env = .ok pl) :
    pl = hlsPlaylists env.rendOk ∧ hlsPlaylists env.rendOk ≠ [] ∧
      env.hlsUploadOk = true := by
  unfold convertToHls at h
  split at h
  · cases h
  · split at h
    · cases h
      exact ⟨rfl, by assumption, by assumption⟩
    · cases h

theorem convertToHls_error_iff (env : Env) (hhls : env.hlsUploadOk = true) :
    convertToHls env = .error () ↔ hlsPlaylists env.rendOk = [] := by
  by_cases hpl : hlsPlaylists env.rendOk = [] <;> simp [convertToHls, hpl, hhls]

/-- Exhaustive characterization of a `complete_upload` run: it either rejects
with MissingChunks leaving all state untouched, fails before the
status-`processing` write, fails during transcoding, succeeds with a
transcoded ladder, or succeeds on the chunked path without transcoding. -/
theorem completeUpload_char (org vid : String) (rec : VideoRec) (st : Store)
    (env : Env) :
    (fun r : CUResult =>
      (r.record = rec ∧ r.store = st ∧ r.hlsStored = none ∧
        r.transcodeAttempted = false ∧ ∃ n, r.outcome = Outcome.missingChunks n) ∨
      (r.record = { rec with status := "failed" } ∧
        r.outcome = Outcome.pipelineError ∧ r.hlsStored = none ∧
        r.transcodeAttempted = false) ∨
      (∃ m2, r.record = { rec with status := "failed", meta := m2 } ∧
        m2.hls_manifest = rec.meta.hls_manifest ∧
        r.outcome = Outcome.pipelineError ∧ r.hlsStored = none ∧
        r.transcodeAttempted = true ∧ convertToHls env = .error ()) ∨
      (r.record.status = "processed" ∧
        r.record.meta = { hls_manifest := some (hlsManifestPath org vid) } ∧
        r.outcome = Outcome.ok ∧ r.transcodeAttempted = true ∧
        r.hlsStored = some (hlsPlaylists env.rendOk) ∧
        convertToHls env = .ok (hlsPlaylists env.rendOk)) ∨
      (∃ m2, r.record = { rec with status := "processed", meta := m2 } ∧
        m2.hls_manifest = rec.meta.hls_manifest ∧
        r.outcome = Outcome.ok ∧ r.hlsStored = none ∧
        r.transcodeAttempted = false))
      (completeUpload org vid rec st env) := by
  unfold completeUpload
  split
  · exact Or.inl ⟨rfl, rfl, rfl, rfl, _, rfl⟩
  · split
    · exact Or.inr (Or.inl ⟨rfl, rfl, rfl, rfl⟩)
    · rename_i assembled _
      split
      · exact Or.inr (Or.inl ⟨rfl, rfl, rfl, rfl⟩)
      · rename_i meta1 st1 heq
        have hpres : (probeStep meta1 (Int.ofNat assembled.length) env.probe).hls_manifest =
            rec.meta.hls_manifest := by
          rw [probeStep_hls_manifest]
          exact storageStep_ok_meta org vid st rec.meta assembled env meta1 st1 heq
        split
        · split
          · rename_i pl heq2
            have hok := convertToHls_ok env pl heq2
            refine Or.inr (Or.inr (Or.inr (Or.inl ⟨rfl, rfl, rfl, rfl, ?_, ?_⟩)))
            · rw [← hok.1]
            · rw [← hok.1]
              exact heq2
          · rename_i u heq2
            refine Or.inr (Or.inr (Or.inl ⟨_, rfl, hpres, rfl, rfl, rfl, ?_⟩))
            cases u
            exact heq2
        · exact Or.inr (Or.inr (Or.inr (Or.inr ⟨_, rfl, hpres, rfl, rfl, rfl⟩)))

/-! ### Claim theorems -/

/-- C1: for every run of the completion pipeline in which an unhandled error
is raised (the handler's `except` path, surfaced as `Outcome.pipelineError`),
the video record's status has been updated to `failed` by the time the
operation returns; in particular no errored run leaves status `processing`. -/
theorem C1_unhandled_error_forces_failed (org vid : String) (rec : VideoRec)
    (st : Store) (env : Env)
    (h : (completeUpload org vid rec st env).outcome = Outcome.pipelineError) :
    (completeUpload org vid rec st env).record.status = "failed" := by
  rcases completeUpload_char org vid rec st env with
    ⟨_, _, _, _, n, hn⟩ | ⟨hr, _, _, _⟩ | ⟨m2, hr, _, _, _, _, _⟩ |
    ⟨_, _, ho, _, _, _⟩ | ⟨m2, _, _, ho, _, _⟩
  · rw [h] at hn
    exact absurd hn (by simp)
  · rw [hr]
  · rw [hr]
  · rw [h] at ho
    exact absurd ho (by simp)
  · rw [h] at ho
    exact absurd ho (by simp)

/-- C1 witness: a concrete errored run (the session's single chunk blob is
missing, so assembly raises): the outcome is a pipeline error and the record
ends with status `failed`. -/
theorem C1_witness :
    (completeUpload "o" "v"
        { status := "uploaded",
          meta := { total_chunks := some 1, uploaded_chunks := some [0] } }
        Store.empty {}).outcome = Outcome.pipelineError ∧
    (completeUpload "o" "v"
        { status := "uploaded",
          meta := { total_chunks := some 1, uploaded_chunks := some [0] } }
        Store.empty {}).record.status = "failed" :=
  ⟨by decide, C1_unhandled_error_forces_failed "o" "v" _ Store.empty {} (by decide)⟩

/-- C2: evaluation of the code at the failing input.  Re-uploading index 0
twice (then nothing else) in a 2-chunk session: the stored blob does equal
the last write, but the index list becomes `[0, 0]` — the second call also
contributed to the received count, so `len(uploaded_chunks) == total_chunks`
holds even though index 1 was never received, and `complete()` then passes
the missing-chunks check and crashes during assembly instead of reporting
the missing chunk.  This falsifies the claim that a re-uploaded index is
counted at most once. -/
theorem C2_duplicate_index_double_count :
    (let m0 : Meta := { session_id := some "s", total_chunks := some 2,
                        uploaded_chunks := some [] }
     let u1 := uploadChunk "o" "v" Store.empty m0 0 [1]
     let u2 := uploadChunk "o" "v" u1.1 u1.2 0 [2]
     u2.1 (chunkPath "o" "v" 0) = some [2] ∧
     u2.2.uploaded_chunks = some [0, 0] ∧
     (u2.2.uploaded_chunks.getD []).length = 2 ∧
     (completeUpload "o" "v" { status := "uploaded", meta := u2.2 } u2.1 {}).outcome =
       Outcome.pipelineError) := by
  decide

/-- C3: for every chunk count `N` and every arrival permutation of the `N`
chunks, after all uploads the received count equals `N` (so `complete()`
passes its check) and the assembly loop produces exactly the concatenation of
the chunk contents in index order `0..N-1`. -/
theorem C3_ordered_assembly (org vid : String) (N : Nat) (b : Nat → Bytes)
    (st0 : Store) (arr : List (Nat × Bytes))
    (hperm : arr.Perm ((List.range N).map fun i => (i, b i))) :
    ((applyUploads org vid
        (st0, { total_chunks := some (N : Int), uploaded_chunks := some [] })
        arr).2.uploaded_chunks.getD []).length = N ∧
    assembleChunks org vid
        (applyUploads org vid
          (st0, { total_chunks := some (N : Int), uploaded_chunks := some [] })
          arr).1 N =
      some (((List.range N).map b).flatten) := by
  constructor
  · rw [applyUploads_chunklist]
    simpa using hperm.length_eq
  · rw [applyUploads_store]
    apply assembleChunks_of_lookup
    intro i hi
    apply foldPut_lookup_last
    · exact hperm.mem_iff.mpr (List.mem_map.mpr ⟨i, List.mem_range.mpr hi, rfl⟩)
    · intro p hp hpi
      obtain ⟨j, _, hpj⟩ := List.mem_map.mp (hperm.mem_iff.mp hp)
      cases hpj
      simp only at hpi
      rw [← hpi]

/-- C3 witness: the spec's own scenario shape — three chunks arriving in
order 0, 2, 1 assemble to chunk 0's bytes, then chunk 1's, then chunk 2's. -/
theorem C3_witness :
    (([(0, [0]), (2, [20]), (1, [10])] : List (Nat × Bytes)).Perm
        ((List.range 3).map fun i => (i, [i * 10]))) ∧
    assembleChunks "o" "v"
        (applyUploads "o" "v"
          (Store.empty, { total_chunks := some (3 : Int), uploaded_chunks := some [] })
          [(0, [0]), (2, [20]), (1, [10])]).1 3 =
      some (((List.range 3).map fun i => [i * 10]).flatten) :=
  ⟨by decide,
   (C3_ordered_assembly "o" "v" 3 (fun i => [i * 10]) Store.empty
     [(0, [0]), (2, [20]), (1, [10])] (by decide)).2⟩

/-- C4 counterexample: a session where not every index in `[0, 2)` has been
received (`uploaded_chunks = [0, 0]`, index 1 missing) but `complete()` does
NOT fail with MissingChunks: the length test `2 == 2` passes, the pipeline
runs, crashes downloading the absent chunk 1, and the status is changed to
`failed` — contradicting both "fails with MissingChunks" and "status
unchanged". -/
theorem C4_counterexample :
    (¬ ∀ i, i < 2 → i ∈ ([0, 0] : List Nat)) ∧
    (completeUpload "o" "v"
        { status := "uploaded",
          meta := { total_chunks := some 2, uploaded_chunks := some [0, 0] } }
        (Store.put Store.empty (chunkPath "o" "v" 0) [7]) {}).outcome =
      Outcome.pipelineError ∧
    (completeUpload "o" "v"
        { status := "uploaded",
          meta := { total_chunks := some 2, uploaded_chunks := some [0, 0] } }
        (Store.put Store.empty (chunkPath "o" "v" 0) [7]) {}).record.status = "failed" := by
  decide

/-- C4 (amended): `complete()` fails before touching any state exactly when
the LENGTH of the received-chunk list (duplicates included) differs from
`total_chunks`, reporting `total_chunks - len(uploaded_chunks)` as the
missing count; in that case the video record and the store are unchanged. -/
theorem C4_missing_chunks_check (org vid : String) (rec : VideoRec) (st : Store)
    (env : Env)
    (h : ((rec.meta.uploaded_chunks.getD []).length : Int) ≠
      rec.meta.total_chunks.getD 0) :
    (completeUpload org vid rec st env).outcome =
      Outcome.missingChunks (rec.meta.total_chunks.getD 0 -
        (rec.meta.uploaded_chunks.getD []).length) ∧
    (completeUpload org vid rec st env).record = rec ∧
    (completeUpload org vid rec st env).store = st := by
  unfold completeUpload
  rw [if_pos h]
  exact ⟨rfl, rfl, rfl⟩

/-- C4 witness: one received chunk out of two — `complete()` reports one
missing chunk and leaves the record as it was. -/
theorem C4_witness :
    ((([0] : List Nat).length : Int) ≠ (2 : Int)) ∧
    (completeUpload "o" "v"
        { status := "uploaded",
          meta := { total_chunks := some 2, uploaded_chunks := some [0] } }
        Store.empty {}).outcome = Outcome.missingChunks 1 ∧
    (completeUpload "o" "v"
        { status := "uploaded",
          meta := { total_chunks := some 2, uploaded_chunks := some [0] } }
        Store.empty {}).record.status = "uploaded" := by
  refine ⟨by decide, ?_, ?_⟩
  · have h := C4_missing_chunks_check "o" "v"
      { status := "uploaded",
        meta := { total_chunks := some 2, uploaded_chunks := some [0] } }
      Store.empty {} (by decide)
    exact h.1.trans (by decide)
  · have h := C4_missing_chunks_check "o" "v"
      { status := "uploaded",
        meta := { total_chunks := some 2, uploaded_chunks := some [0] } }
      Store.empty {} (by decide)
    rw [h.2.1]

/-- C5: the storage representation is decided exactly by the 50MB threshold
on the assembled size.  Above `50 * 1024 * 1024` bytes the chunk set is kept
(`storage_type = 'chunked'`) and the store is untouched (no consolidated
re-upload); at or below the threshold the consolidated blob is uploaded at
the completion storage path, `storage_type = 'single'` is recorded, and every
chunk whose best-effort deletion succeeds is gone — with deletion failure
non-fatal (the step still returns successfully for every `deleteOk`). -/
theorem C5_storage_threshold (org vid : String) (st : Store) (m : Meta)
    (assembled : Bytes) (env : Env) (hup : env.uploadOk = true) :
    (Int.ofNat assembled.length > 50 * 1024 * 1024 →
      storageStep org vid st m assembled env =
        .ok ({ m with assembly_complete := some true,
                      file_size := some (Int.ofNat assembled.length),
                      storage_type := some "chunked" }, st)) ∧
    (Int.ofNat assembled.length ≤ 50 * 1024 * 1024 →
      storageStep org vid st m assembled env =
        .ok ({ m with storage_type := some "single" },
          deleteChunks org vid
            (Store.put st (completionStoragePath org vid) assembled)
            (m.total_chunks.getD 0).toNat env.deleteOk) ∧
      (deleteChunks org vid
          (Store.put st (completionStoragePath org vid) assembled)
          (m.total_chunks.getD 0).toNat env.deleteOk)
        (completionStoragePath org vid) = some assembled ∧
      (∀ i, i < (m.total_chunks.getD 0).toNat → env.deleteOk i = true →
        (deleteChunks org vid
          (Store.put st (completionStoragePath org vid) assembled)
          (m.total_chunks.getD 0).toNat env.deleteOk)
          (chunkPath org vid i) = none)) := by
  constructor
  · intro hgt
    unfold storageStep
    rw [if_pos hgt]
  · intro hle
    refine ⟨?_, ?_, ?_⟩
    · unfold storageStep
      rw [if_neg (by omega), if_pos hup]
    · rw [deleteChunks_lookup_other org vid _ _ _ _
        (fun i _ _ => chunkPath_ne_completionPath org vid org vid i)]
      exact Store.put_self _ _ _
    · intro i hi hd
      exact deleteChunks_lookup_deleted org vid _ _ _ i hi hd

/-- C5 witness: a one-byte, one-chunk upload is below the threshold: the
consolidated blob ends up stored at the completion path and the chunk blob
is deleted. -/
theorem C5_witness :
    (({} : Env).uploadOk = true) ∧
    (Int.ofNat ([9] : Bytes).length ≤ 50 * 1024 * 1024) ∧
    (deleteChunks "o" "v"
        (Store.put Store.empty (completionStoragePath "o" "v") [9])
        ((({ total_chunks := some 1 } : Meta).total_chunks.getD 0).toNat)
        (({} : Env).deleteOk))
      (completionStoragePath "o" "v") = some ([9] : Bytes) := by
  have h := (C5_storage_threshold "o" "v" Store.empty { total_chunks := some 1 }
    [9] {} rfl).2 (by decide)
  exact ⟨rfl, by decide, h.2.1⟩

theorem hlsPlaylists_eq_nil_iff (rendOk : Nat → Bool) :
    hlsPlaylists rendOk = [] ↔
      (rendOk 0 = false ∧ rendOk 1 = false ∧ rendOk 2 = false) := by
  cases h0 : rendOk 0 <;> cases h1 : rendOk 1 <;> cases h2 : rendOk 2 <;>
    simp [hlsPlaylists, qualityPresets, List.enum, List.enumFrom, h0, h1, h2]

/-- C6: the record reaches status `processed` with the HLS manifest path set
exactly when the transcode step ran and at least one of the three ladder
renditions succeeded; rendition failures are skipped individually, and when
the transcode step runs with zero successful renditions the whole call fails
(`TranscodeFailed`), no master manifest is stored, and the record's status
becomes `failed`.  (The blob uploads themselves are assumed available:
`hlsUploadOk`.) -/
theorem C6_transcode_ladder (org vid : String) (rec : VideoRec) (st : Store)
    (env : Env) (hhls : env.hlsUploadOk = true)
    (hrec : rec.meta.hls_manifest = none) :
    (((completeUpload org vid rec st env).record.status = "processed" ∧
        ((completeUpload org vid rec st env).record.meta.hls_manifest).isSome = true) ↔
      ((completeUpload org vid rec st env).transcodeAttempted = true ∧
        hlsPlaylists env.rendOk ≠ [])) ∧
    ((completeUpload org vid rec st env).transcodeAttempted = true →
      hlsPlaylists env.rendOk = [] →
      (completeUpload org vid rec st env).outcome = Outcome.pipelineError ∧
      (completeUpload org vid rec st env).record.status = "failed" ∧
      (completeUpload org vid rec st env).hlsStored = none) ∧
    (hlsPlaylists env.rendOk = [] ↔
      (env.rendOk 0 = false ∧ env.rendOk 1 = false ∧ env.rendOk 2 = false)) := by
  refine ⟨?_, ?_, hlsPlaylists_eq_nil_iff env.rendOk⟩
  · rcases completeUpload_char org vid rec st env with
      ⟨hr, _, _, ht, _, _⟩ | ⟨hr, _, _, ht⟩ | ⟨m2, hr, hm, _, _, _, hconv⟩ |
      ⟨hs, hm, _, ht, _, hconv⟩ | ⟨m2, hr, hm, _, _, ht⟩
    · refine iff_of_false ?_ (by simp [ht])
      rw [hr]
      simp [hrec]
    · refine iff_of_false ?_ (by simp [ht])
      rw [hr]
      intro hx
      exact absurd hx.1 (show "failed" ≠ "processed" by decide)
    · refine iff_of_false ?_ ?_
      · rw [hr]
        intro hx
        exact absurd hx.1 (show "failed" ≠ "processed" by decide)
      · intro hx
        exact hx.2 ((convertToHls_error_iff env hhls).mp hconv)
    · exact iff_of_true ⟨hs, by rw [hm]; rfl⟩ ⟨ht, (convertToHls_ok env _ hconv).2.1⟩
    · refine iff_of_false ?_ (by simp [ht])
      rw [hr]
      simp [hm, hrec]
  · intro hatt hpl
    rcases completeUpload_char org vid rec st env with
      ⟨_, _, _, ht, _, _⟩ | ⟨_, _, _, ht⟩ | ⟨m2, hr, _, ho, hst, _, _⟩ |
      ⟨_, _, _, _, _, hconv⟩ | ⟨m2, _, _, _, _, ht⟩
    · simp [ht] at hatt
    · simp [ht] at hatt
    · exact ⟨ho, by rw [hr], hst⟩
    · exact absurd hpl (convertToHls_ok env _ hconv).2.1
    · simp [ht] at hatt

/-- C6 witness: a single-chunk small upload with only the first (1080p)
rendition succeeding: the video ends `processed` with the manifest path
set. -/
theorem C6_witness :
    (completeUpload "o" "v"
        { status := "uploaded",
          meta := { total_chunks := some 1, uploaded_chunks := some [0] } }
        (Store.put Store.empty (chunkPath "o" "v" 0) [3])
        { rendOk := fun i => decide (i = 0) }).record.status = "processed" ∧
    ((completeUpload "o" "v"
        { status := "uploaded",
          meta := { total_chunks := some 1, uploaded_chunks := some [0] } }
        (Store.put Store.empty (chunkPath "o" "v" 0) [3])
        { rendOk := fun i => decide (i = 0) }).record.meta.hls_manifest).isSome = true := by
  have h := C6_transcode_ladder "o" "v"
    { status := "uploaded",
      meta := { total_chunks := some 1, uploaded_chunks := some [0] } }
    (Store.put Store.empty (chunkPath "o" "v" 0) [3])
    { rendOk := fun i => decide (i = 0) } rfl rfl
  exact h.1.mpr ⟨by decide, by decide⟩

/-- C7 counterexample: at a concrete org and video id, the path the streaming
proxy resolves is NOT the path the completion step stored the consolidated
blob at — the claim's "path written at assembly equals the path read when
streaming" is false. -/
theorem C7_counterexample :
    (streamVideoSegment "default" "vid1" none).resolvedPath ≠
      completionStoragePath "default" "vid1" := by
  decide

/-- C7 (amended): `streamRange` resolves `videos/{org}/{vid}/original.mp4` —
the path written by the direct-upload path (`process_upload`), which differs
from the completion step's `{org}/{vid}/original.mp4` for every org and
video id; the client `Range` header is forwarded to the backend unmodified
and the response advertises `Accept-Ranges: bytes`. -/
theorem C7_stream_path_and_range (org vid r : String) :
    (streamVideoSegment org vid (some r)).resolvedPath =
      processUploadStoragePath org vid ∧
    (streamVideoSegment org vid (some r)).resolvedPath ≠
      completionStoragePath org vid ∧
    (streamVideoSegment org vid (some r)).backendHeaders = [("Range", r)] ∧
    ("Accept-Ranges", "bytes") ∈
      (streamVideoSegment org vid (some r)).responseHeaders := by
  refine ⟨rfl, ?_, rfl, by simp [streamVideoSegment]⟩
  intro h
  have hlen : (streamResolvedPath org vid).length =
      (completionStoragePath org vid).length := congrArg String.length h
  simp only [streamResolvedPath, completionStoragePath, String.length_append,
    show ("videos/" : String).length = 7 from rfl] at hlen
  omega

/-! Frame-rate parsing helper lemmas for C8. -/

theorem splitSlash_no_slash (l : List Char) (h : '/' ∉ l) : splitSlash l = [l] := by
  induction l with
  | nil => rfl
  | cons c rest ih =>
    unfold splitSlash
    rw [if_neg (fun hc => h (by simp [hc])),
      ih (fun hc => h (List.mem_cons_of_mem c hc))]

theorem splitSlash_two (a b : List Char) (ha : '/' ∉ a) (hb : '/' ∉ b) :
    splitSlash (a ++ '/' :: b) = [a, b] := by
  induction a with
  | nil =>
    show splitSlash ('/' :: b) = [[], b]
    unfold splitSlash
    rw [if_pos rfl, splitSlash_no_slash b hb]
  | cons c a ih =>
    show splitSlash (c :: (a ++ '/' :: b)) = [c :: a, b]
    unfold splitSlash
    rw [if_neg (fun hc => ha (by simp [hc])),
      ih (fun hc => ha (List.mem_cons_of_mem c hc))]

theorem no_slash_of_digits (l : List Char) (h : l.all (·.isDigit) = true) :
    '/' ∉ l := by
  intro hmem
  have := List.all_eq_true.mp h _ hmem
  exact absurd this (by decide)

theorem pyFloat?_digits (l : List Char) (hne : l ≠ [])
    (hd : l.all (·.isDigit) = true) : pyFloat? l = some ((parseDec l : ℚ)) := by
  unfold pyFloat?
  rw [if_pos ⟨hne, hd⟩]

theorem env_probe_update (env : Env) (p : Except Unit ProbeMeta) :
    ({ env with probe := p } : Env).probe = p := rfl

theorem storageStep_env_probe (org vid : String) (st : Store) (m : Meta)
    (a : Bytes) (env : Env) (p : Except Unit ProbeMeta) :
    storageStep org vid st m a { env with probe := p } =
      storageStep org vid st m a env := rfl

theorem convertToHls_env_probe (env : Env) (p : Except Unit ProbeMeta) :
    convertToHls { env with probe := p } = convertToHls env := rfl

/-- C7 witness: a concrete instantiation of the amended statement, at the
Range header from the spec's own example. -/
theorem C7_witness :
    (streamVideoSegment "default" "vid1" (some "bytes=100-199")).resolvedPath =
      processUploadStoragePath "default" "vid1" ∧
    (streamVideoSegment "default" "vid1" (some "bytes=100-199")).resolvedPath ≠
      completionStoragePath "default" "vid1" ∧
    (streamVideoSegment "default" "vid1" (some "bytes=100-199")).backendHeaders =
      [("Range", "bytes=100-199")] ∧
    ("Accept-Ranges", "bytes") ∈
      (streamVideoSegment "default" "vid1" (some "bytes=100-199")).responseHeaders :=
  C7_stream_path_and_range "default" "vid1" "bytes=100-199"

/-- C8: frame-rate handling and probe fallback.  For digit strings `a`, `b`:
`parseFps (a ++ "/" ++ b)` is the rational `a / b` (which is 0 when the
denominator is 0 — the caught `ZeroDivisionError`); a string that does not
split into exactly two parts parses to 0; when the probe tool fails the
fallback metadata record (duration 0, fps 30, resolution and codec
`unknown`, bitrate 0, size = assembled file size) is merged instead; and a
probe failure never changes the outcome of the completion pipeline. -/
theorem C8_probe_fps_and_fallback (a b junk : String) (org vid : String)
    (rec : VideoRec) (st : Store) (env : Env) (pm : ProbeMeta) (m : Meta)
    (fs : Int)
    (ha1 : a.data ≠ []) (ha2 : a.data.all (·.isDigit) = true)
    (hb1 : b.data ≠ []) (hb2 : b.data.all (·.isDigit) = true)
    (hjunk : (splitSlash junk.data).length ≠ 2) :
    parseFps (a ++ "/" ++ b) = ((parseDec a.data : ℚ) / (parseDec b.data : ℚ)) ∧
    ((parseDec b.data : ℚ) = 0 → parseFps (a ++ "/" ++ b) = 0) ∧
    parseFps junk = 0 ∧
    probeStep m fs (.error ()) =
      { m with duration := some 0, fps := some 30, resolution := some "unknown",
               codec := some "unknown", bitrate := some 0, size := some fs } ∧
    (completeUpload org vid rec st { env with probe := .error () }).outcome =
      (completeUpload org vid rec st { env with probe := .ok pm }).outcome := by
  have hrat : parseFps (a ++ "/" ++ b) =
      ((parseDec a.data : ℚ) / (parseDec b.data : ℚ)) := by
    unfold parseFps
    have hdata : (a ++ "/" ++ b).data = a.data ++ '/' :: b.data := by
      simp [String.data_append]
    rw [hdata, splitSlash_two _ _ (no_slash_of_digits _ ha2) (no_slash_of_digits _ hb2)]
    show (match pyFloat? a.data, pyFloat? b.data with
      | some x, some y => if y = 0 then (0 : ℚ) else x / y
      | _, _ => 0) = _
    rw [pyFloat?_digits _ ha1 ha2, pyFloat?_digits _ hb1 hb2]
    show (if (parseDec b.data : ℚ) = 0 then (0 : ℚ)
      else (parseDec a.data : ℚ) / (parseDec b.data : ℚ)) = _
    by_cases hz : (parseDec b.data : ℚ) = 0
    · rw [if_pos hz, hz, div_zero]
    · rw [if_neg hz]
  refine ⟨hrat, ?_, ?_, rfl, ?_⟩
  · intro hbz
    rw [hrat, hbz, div_zero]
  · rcases hsp : splitSlash junk.data with _ | ⟨x, _ | ⟨y, _ | ⟨z, rest⟩⟩⟩
    · unfold parseFps
      rw [hsp]
    · unfold parseFps
      rw [hsp]
    · exact absurd (by rw [hsp]; rfl) hjunk
    · unfold parseFps
      rw [hsp]
  · unfold completeUpload
    simp only [storageStep_env_probe, convertToHls_env_probe, env_probe_update,
      probeStep_storage_type]
    repeat' split
    all_goals rfl

/-- C8 witness: `"30000/1001"` parses to the rational 30000/1001, and a
slash-free string parses to 0. -/
theorem C8_witness :
    parseFps ("30000" ++ "/" ++ "1001") =
      ((parseDec "30000".data : ℚ) / (parseDec "1001".data : ℚ)) ∧
    parseFps "junk" = 0 := by
  have h := C8_probe_fps_and_fallback "30000" "1001" "junk" "o" "v"
    { status := "uploaded" } Store.empty {} ⟨0, 0, "", "", 0, 0⟩ {} 0
    (by decide) (by decide) (by decide) (by decide) (by decide)
  exact ⟨h.1, h.2.2.1⟩

/-- C9 counterexample: `file_size = "-1"`, `total_chunks = "0"` — both
non-positive — are accepted: no InvalidRequest is raised and the video
record IS created, falsifying the claim that non-positive parameters are
rejected with no state created. -/
theorem C9_counterexample :
    ((-1 : Int) ≤ 0 ∧ (0 : Int) ≤ 0) ∧
    (initChunkedUpload "a.mp4" "-1" "0" "org" "vid" "sess").errorCode = none ∧
    ((initChunkedUpload "a.mp4" "-1" "0" "org" "vid" "sess").created).isSome = true := by
  decide

/-- C9 (amended): session init rejects with HTTP 400 and creates no state
exactly when `file_size` or `total_chunks` fails integer parsing
(`ValueError`); every pair of parsed integers — positive or not — creates
the video record with status `uploaded` and an empty received-chunk list. -/
theorem C9_init_no_positivity_check (filename fs tc org vid session : String) :
    ((pyInt? fs = none ∨ pyInt? tc = none) →
      initChunkedUpload filename fs tc org vid session =
        { created := none, errorCode := some 400 }) ∧
    (∀ i j : Int, pyInt? fs = some i → pyInt? tc = some j →
      (initChunkedUpload filename fs tc org vid session).created = some
        { status := "uploaded", filename := filename,
          storage_path := some (completionStoragePath org vid),
          file_size_bytes := some i,
          meta := { session_id := some session, total_chunks := some j,
                    uploaded_chunks := some [] } } ∧
      (initChunkedUpload filename fs tc org vid session).errorCode = none) := by
  constructor
  · intro h
    unfold initChunkedUpload
    rcases h with h | h
    · rw [h]
    · rw [h]
      cases pyInt? fs <;> rfl
  · intro i j hi hj
    unfold initChunkedUpload
    rw [hi, hj]
    exact ⟨rfl, rfl⟩

/-- C9 witness: an unparsable `file_size` is rejected with 400 and creates
nothing. -/
theorem C9_witness :
    (pyInt? "x" = none ∨ pyInt? "3" = none) ∧
    initChunkedUpload "a.mp4" "x" "3" "o" "v" "s" =
      { created := none, errorCode := some 400 } := by
  have h := C9_init_no_positivity_check "a.mp4" "x" "3" "o" "v" "s"
  exact ⟨Or.inl (by decide), h.1 (Or.inl (by decide))⟩

/-- C10: evaluation of the code at the failing input.  When the direct upload
route's processing raises, the handler writes the status string `'error'`
(routes/videos.py:101) — a value outside the `VideoStatus` enum declared in
models.py, falsifying the claim that every persisted status is one of the
four enum values. -/
theorem C10_error_status_outside_enum :
    "error" ∈ uploadVideoStatusWrites false ∧ "error" ∉ videoStatusValues := by
  decide

end HockeyAnalytics
